import Mathlib

/-!
Shallow embedding of the cookie-extraction CLI (main.go) and proofs about it.

The program reads browser cookie stores through an external library, filters
cookies by domain, aggregates them across stores, and prints the result in one
of four formats.  External collaborators (the store-reading library, the JSON
encoder of the Go standard library, pflag) are modelled by explicit Lean data:
a Store carries its browser identity and its read function; the Go
map-plus-Marshal pipeline is modelled by a key-indexed partial map together
with the documented sorted-key emission of the encoder.
-/

/-- Single-quote character, used when building shell command strings. -/
def squo : String := (Char.ofNat 39).toString

/-- One cookie record as delivered by the store-reading library.  The field
set models the record the source iterates over with reflection; the
Container field is the browser-specific field that only firefox uses. -/
structure Cookie where
  Name : String
  Value : String
  Path : String
  Domain : String
  Expires : Nat
  Creation : Nat
  Container : String
deriving DecidableEq

/-- Filter predicates passed to a store read, as built in getCookies:
kooky.Valid and kooky.DomainContains. -/
inductive CookieFilter where
  | valid : CookieFilter
  | domainContains (s : String) : CookieFilter
deriving DecidableEq

/-- One enumerated cookie store: its declared browser identity and its
ReadCookies operation, which returns a cookie sequence and an optional
error text. -/
structure Store where
  browser : String
  read : List CookieFilter → List Cookie × Option String

/-- Filter list built in getCookies: the Valid filter is appended only when
showExpired is false, then DomainContains domain is always appended. -/
def cookieFilters (showExpired : Bool) (domain : String) : List CookieFilter :=
  (if !showExpired then [CookieFilter.valid] else []) ++ [CookieFilter.domainContains domain]

/-- Accumulated state of the store loop in getCookies: aggregated cookies,
store error texts, deferred Close registrations (in registration order) and
the indices of stores whose ReadCookies was invoked. -/
structure LoopOut where
  cookies : List Cookie
  errs : List String
  defers : List Nat
  reads : List Nat
deriving DecidableEq

/-- The store loop of getCookies.  Each iteration first registers a deferred
Close for the store (Go defer, in the loop body before any branch), skips the
store when its browser identity differs from the requested one, and otherwise
reads it: an error text is appended to the store-error list and the returned
cookie sequence is appended to the aggregate unconditionally. -/
def aggLoop (b : String) (fs : List CookieFilter) : List Store → Nat → LoopOut
  | [], _ => ⟨[], [], [], []⟩
  | s :: rest, i =>
    let r := aggLoop b fs rest (i + 1)
    if s.browser = b then
      let rc := s.read fs
      ⟨rc.1 ++ r.cookies, rc.2.toList ++ r.errs, i :: r.defers, i :: r.reads⟩
    else
      ⟨r.cookies, r.errs, i :: r.defers, r.reads⟩

/-- Error message produced by getCookies when the aggregate is empty. -/
def errNoCookiesMsg (b d : String) : String :=
  "no cookies for browser " ++ b ++ " and domain " ++ d ++ " found."

/-- Outcome of getCookies: the result (cookie list or the NotFound error
message), the store-error list, the order in which Close ran (deferred calls
execute in reverse registration order when the function returns), and the
order in which ReadCookies was invoked. -/
structure AggOutcome where
  result : Except String (List Cookie)
  storeErrors : List String
  closedOrder : List Nat
  readOrder : List Nat

/-- getCookies from main.go.  The Go code tests cookies == nil, and a slice
built only by append is nil exactly when nothing was ever appended, so the
test is modelled as emptiness of the aggregate. -/
def getCookies (b d : String) (showExpired : Bool) (stores : List Store) : AggOutcome :=
  let out := aggLoop b (cookieFilters showExpired d) stores 0
  { result := if out.cookies = [] then Except.error (errNoCookiesMsg b d) else Except.ok out.cookies
    storeErrors := out.errs
    closedOrder := out.defers.reverse
    readOrder := out.reads }

/-- Functional model of a Go map from string keys: an update-only partial
map.  Updating binds the key to the new value and leaves every other key
unchanged. -/
def goMapUpdate {α : Type} (m : String → Option α) (k : String) (v : α) : String → Option α :=
  fun q => if q = k then some v else m q

/-- Go map built by the idiom used throughout main.go: iterate a list and
assign m[key x] = val x for each element, starting from the empty map. -/
def goMapOfList {β : Type} {α : Type} (key : β → String) (val : β → α) (l : List β) :
    String → Option α :=
  l.foldl (fun m x => goMapUpdate m (key x) (val x)) (fun _ => none)

/-- Keys of a marshalled Go map: the distinct keys, in sorted order.  The Go
JSON encoder documents that map keys are emitted sorted; UTF-8 byte order
agrees with code-point order, which the String order models. -/
def goMarshalKeys (raw : List String) : List String :=
  List.insertionSort (fun a b => a ≤ b) raw.dedup

/-- Entry list of a marshalled Go map built from l by goMapOfList: for each
distinct key in sorted order, the bound value. -/
def goMarshalEntries {β : Type} {α : Type} (key : β → String) (val : β → α) (l : List β) :
    List (String × α) :=
  (goMarshalKeys (l.map key)).filterMap (fun k => (goMapOfList key val l k).map (fun v => (k, v)))

/-- Join a list of strings with a separator, as Go strings.Join renders:
empty for the empty list, no trailing separator. -/
def specSepJoin (sep : String) : List String → String
  | [] => ""
  | [x] => x
  | x :: y :: rest => x ++ sep ++ specSepJoin sep (y :: rest)

/-- Go strings.Join, modelled on its implementation: the first element
followed by separator-prefixed remaining elements. -/
def goStringsJoin (sep : String) : List String → String
  | [] => ""
  | x :: xs => xs.foldl (fun acc s => acc ++ sep ++ s) x

/-- Hexadecimal digit character. -/
def hexChar (n : Nat) : Char :=
  if n < 10 then Char.ofNat (48 + n) else Char.ofNat (87 + n)

/-- Escaping of one character inside a JSON string, following the Go JSON
encoder (HTML-escaping enabled, as json.Marshal uses by default). -/
def goJsonEscapeChar (c : Char) : String :=
  if c = '"' then "\\\""
  else if c = '\\' then "\\\\"
  else if c = '\n' then "\\n"
  else if c = '\r' then "\\r"
  else if c = '\t' then "\\t"
  else if c = '<' then "\\u003c"
  else if c = '>' then "\\u003e"
  else if c = '&' then "\\u0026"
  else if c.toNat < 32 then "\\u00" ++ String.mk [hexChar (c.toNat / 16), hexChar (c.toNat % 16)]
  else String.singleton c

/-- A JSON string literal for s, in the Go encoding. -/
def goJsonQuote (s : String) : String :=
  "\"" ++ String.join (s.data.map goJsonEscapeChar) ++ "\""

/-- A JSON object from an entry list, rendering each value with the given
function: quoted key, colon, value, entries comma-separated inside braces. -/
def jsonObjectWith {α : Type} (render : α → String) (entries : List (String × α)) : String :=
  "\x7b" ++ specSepJoin "," (entries.map (fun e => goJsonQuote e.1 ++ ":" ++ render e.2)) ++ "\x7d"

/-- Entry list of serializeCookiesToJson: the Go map m[c.Name] = c.Value over
the aggregated cookies, marshalled with sorted keys. -/
def serializeCookiesToJsonEntries (cookies : List Cookie) : List (String × String) :=
  goMarshalEntries Cookie.Name Cookie.Value cookies

/-- serializeCookiesToJson from main.go: name-to-value JSON object. -/
def serializeCookiesToJson (cookies : List Cookie) : String :=
  jsonObjectWith goJsonQuote (serializeCookiesToJsonEntries cookies)

/-- JSON value of one reflected cookie field. -/
inductive JValue where
  | str (s : String) : JValue
  | num (n : Nat) : JValue
deriving DecidableEq

/-- The reflected field list of a cookie record, in declaration order. -/
def cookieFieldList (c : Cookie) : List (String × JValue) :=
  [("Name", JValue.str c.Name), ("Value", JValue.str c.Value),
   ("Path", JValue.str c.Path), ("Domain", JValue.str c.Domain),
   ("Expires", JValue.num c.Expires), ("Creation", JValue.num c.Creation),
   ("Container", JValue.str c.Container)]

/-- Field map built for one cookie by serializeFullCookieInfoToJson: every
reflected field is kept except Container, which is skipped unless the
selected browser is firefox. -/
def cookieReflectFields (browser : String) (c : Cookie) : List (String × JValue) :=
  (cookieFieldList c).foldl
    (fun acc f => if f.1 == "Container" && browser != "firefox" then acc else acc ++ [f]) []

/-- Sort an entry list by key, as the Go encoder does for nested maps. -/
def sortEntriesByKey {α : Type} (l : List (String × α)) : List (String × α) :=
  List.insertionSort (fun p q => p.1 ≤ q.1) l

/-- Rendering of one reflected field value as JSON. -/
def renderJValue : JValue → String
  | JValue.str s => goJsonQuote s
  | JValue.num n => toString n

/-- Entry list of serializeFullCookieInfoToJson: the Go map from cookie name
to the per-cookie field map, marshalled with sorted keys. -/
def serializeFullCookieInfoToJsonEntries (browser : String) (cookies : List Cookie) :
    List (String × List (String × JValue)) :=
  goMarshalEntries Cookie.Name (cookieReflectFields browser) cookies

/-- serializeFullCookieInfoToJson from main.go: JSON object from cookie name
to an object of all reflected fields of that cookie. -/
def serializeFullCookieInfoToJson (browser : String) (cookies : List Cookie) : String :=
  jsonObjectWith (fun fields => jsonObjectWith renderJValue (sortEntriesByKey fields))
    (serializeFullCookieInfoToJsonEntries browser cookies)

/-- createCurlCommand from main.go: collect name=value parts in order with
append, join them with semicolons, and splice the joined string and the raw
domain into the command template. -/
def createCurlCommand (cookies : List Cookie) (domain : String) : String :=
  let cookieParts := cookies.foldl (fun acc c => acc ++ [c.Name ++ "=" ++ c.Value]) []
  let cookieString := goStringsJoin ";" cookieParts
  "curl -H " ++ squo ++ "Cookie: " ++ cookieString ++ squo ++ " " ++ squo ++ "https://" ++ domain ++ squo

/-- The two failure modes of getCookieValue, distinguished by their error
texts in the source: cookie exists but has an empty value, and cookie does
not exist. -/
inductive LookupError where
  | emptyValue : LookupError
  | notFound : LookupError
deriving DecidableEq

/-- getCookieValue from main.go: scan the aggregated sequence for the first
cookie whose Name equals the requested name; an empty value at that cookie
is the EmptyValue error, no match at all is the NotFound error. -/
def getCookieValue : List Cookie → String → Except LookupError String
  | [], _ => Except.error LookupError.notFound
  | c :: rest, n =>
    if n = c.Name then
      if c.Value = "" then Except.error LookupError.emptyValue else Except.ok c.Value
    else getCookieValue rest n

/-- Decimal digit character. -/
def digitToChar : Nat → Char
  | 0 => '0'
  | 1 => '1'
  | 2 => '2'
  | 3 => '3'
  | 4 => '4'
  | 5 => '5'
  | 6 => '6'
  | 7 => '7'
  | 8 => '8'
  | _ => '9'

/-- Model of strconv.Itoa for natural numbers: decimal digits, most
significant first. -/
def itoa (n : Nat) : String :=
  if n = 0 then "0" else String.mk (((Nat.digits 10 n).map digitToChar).reverse)

/-- Index-value pairs of a list starting at index i, modelling the Go
range-with-index loop. -/
def indexedFrom {α : Type} : Nat → List α → List (Nat × α)
  | _, [] => []
  | i, x :: rest => (i, x) :: indexedFrom (i + 1) rest

/-- Entry list of formatStoreErrorsAsJson: the Go map from the 1-based index
rendered in decimal to the error text, marshalled with sorted keys. -/
def storeErrorsEntries (errs : List String) : List (String × String) :=
  goMarshalEntries (fun p => itoa (p.1 + 1)) Prod.snd (indexedFrom 0 errs)

/-- formatStoreErrorsAsJson from main.go, with the store-error list made an
explicit argument in place of the Go package-level variable. -/
def formatStoreErrorsAsJson (errs : List String) : String :=
  jsonObjectWith goJsonQuote (storeErrorsEntries errs)

/-- The parsed command-line flags, plus the count of flags the user set on
the command line (pflag NFlag), which the source consults for the no-flags
usage path. -/
structure Flags where
  domain : String
  browser : String
  curl : Bool
  expired : Bool
  full : Bool
  name : String
  debug : Bool
  help : Bool
  nflag : Nat
deriving DecidableEq

/-- ConfigError message for a missing domain flag. -/
def domainRequiredMsg : String :=
  "flag domain is required, use either -d $DOMAIN or --domain $DOMAIN"

/-- ConfigError message for the curl and name flags used together. -/
def curlNameMutexMsg : String :=
  "flag " ++ squo ++ "curl" ++ squo ++ " and flag " ++ squo ++ "name" ++ squo ++
    " are mutually exclusive"

/-- Result of parseFlags: the usage path (printUsage exits the process with
status 0), a configuration error, or success. -/
inductive ParseResult where
  | usageExit : ParseResult
  | configError (msg : String) : ParseResult
  | ok : ParseResult
deriving DecidableEq

/-- parseFlags from main.go: help or an empty command line takes the usage
path first; then an empty domain is a configuration error; then curl
together with a non-empty name is a configuration error. -/
def parseFlags (f : Flags) : ParseResult :=
  if f.help || f.nflag == 0 then ParseResult.usageExit
  else if f.domain = "" then ParseResult.configError domainRequiredMsg
  else if f.curl && f.name != "" then ParseResult.configError curlNameMutexMsg
  else ParseResult.ok

/-- Errors that run can return, by source site: a wrapped parseFlags error,
the wrapped getCookies error, and a wrapped getCookieValue error.  The Go
wrapping prefixes are fixed context strings and are elided here. -/
inductive RunError where
  | config (msg : String) : RunError
  | noCookies (msg : String) : RunError
  | lookup (cookieName : String) (e : LookupError) : RunError
deriving DecidableEq

/-- Terminal state of the process: usage exit (status 0), normal completion
(status 0), or a fatal logged error (non-zero status). -/
inductive RunResult where
  | usageExit : RunResult
  | ok : RunResult
  | error (e : RunError) : RunResult
deriving DecidableEq

/-- Observable outcome of run: the stdout lines in print order, the terminal
state, and the store close and read traces of the single getCookies call
(empty when getCookies was never reached). -/
structure RunOutcome where
  lines : List String
  result : RunResult
  closedOrder : List Nat
  readOrder : List Nat

/-- run from main.go, over the parsed flags and the enumerated stores.  The
usage text printed by printUsage is not modelled, only its exit.  Output
order follows the source: the debug store-error line is printed after a
successful getCookies and before the selected formatter output; formatter
selection is name lookup, then curl, then full JSON, then name-value JSON. -/
def runMain (f : Flags) (stores : List Store) : RunOutcome :=
  match parseFlags f with
  | ParseResult.usageExit => ⟨[], RunResult.usageExit, [], []⟩
  | ParseResult.configError msg => ⟨[], RunResult.error (RunError.config msg), [], []⟩
  | ParseResult.ok =>
    let agg := getCookies f.browser f.domain f.expired stores
    match agg.result with
    | Except.error msg =>
      ⟨[], RunResult.error (RunError.noCookies msg), agg.closedOrder, agg.readOrder⟩
    | Except.ok cookies =>
      let debugLines := if f.debug then [formatStoreErrorsAsJson agg.storeErrors] else []
      if f.name != "" then
        match getCookieValue cookies f.name with
        | Except.error e =>
          ⟨debugLines, RunResult.error (RunError.lookup f.name e), agg.closedOrder, agg.readOrder⟩
        | Except.ok v => ⟨debugLines ++ [v], RunResult.ok, agg.closedOrder, agg.readOrder⟩
      else if f.curl then
        ⟨debugLines ++ [createCurlCommand cookies f.domain], RunResult.ok,
          agg.closedOrder, agg.readOrder⟩
      else if f.full then
        ⟨debugLines ++ [serializeFullCookieInfoToJson f.browser cookies], RunResult.ok,
          agg.closedOrder, agg.readOrder⟩
      else
        ⟨debugLines ++ [serializeCookiesToJson cookies], RunResult.ok,
          agg.closedOrder, agg.readOrder⟩

/-- Process exit status: zero for the usage path and normal completion,
one for a fatal error (log.Fatal). -/
def exitCode (o : RunOutcome) : Nat :=
  match o.result with
  | RunResult.usageExit => 0
  | RunResult.ok => 0
  | RunResult.error _ => 1

/-- Demo cookie used by concrete witnesses. -/
def cSid : Cookie := ⟨"sid", "abc", "/", "example.com", 1, 1, ""⟩

/-- Demo cookie used by concrete witnesses. -/
def cTheme : Cookie := ⟨"theme", "dark", "/", "example.com", 1, 1, ""⟩

/-- Demo store whose read succeeds with two cookies. -/
def storeGood : Store := ⟨"chrome", fun _ => ([cSid, cTheme], none)⟩

/-- Demo store whose read fails and returns no cookies. -/
def storeLocked : Store := ⟨"chrome", fun _ => ([], some "locked")⟩

/-- Demo store whose read fails and nevertheless returns a cookie, as the
collaborator interface permits. -/
def storeBad : Store := ⟨"chrome", fun _ => ([cTheme], some "locked")⟩

/-- Demo store of another browser family. -/
def storeFox : Store := ⟨"firefox", fun _ => ([], none)⟩

/-- Concatenation of the cookie sequences of matching, non-errored reads
only.  This definition follows the claim wording — no matching, non-errored
cookies across all stores — for comparison with what getCookies actually
tests before failing. -/
def specNonErroredConcat (b d : String) (e : Bool) (stores : List Store) : List Cookie :=
  ((stores.filter (fun s => s.browser == b)).filterMap
    (fun s => match s.read (cookieFilters e d) with
      | (cs, none) => some cs
      | (_, some _) => none)).flatten

/-- Flags with an empty domain and curl together with a name, but with help
set: the program takes the usage path instead of failing. -/
def helpConflictFlags : Flags :=
  ⟨"", "chrome", true, false, false, "sid", false, true, 3⟩

/-- Flags with an empty domain, help unset and one flag supplied. -/
def emptyDomainFlags : Flags :=
  ⟨"", "chrome", false, false, false, "", false, false, 1⟩

/-- Flags selecting the default formatter with debug logging on. -/
def debugFlags : Flags :=
  ⟨"example.com", "chrome", false, false, false, "", true, false, 1⟩

theorem foldl_append_singleton {α β : Type} (g : α → β) (l : List α) :
    ∀ acc : List β, l.foldl (fun a c => a ++ [g c]) acc = acc ++ l.map g := by
  induction l with
  | nil => intro acc; simp
  | cons x rest ih => intro acc; simp [ih]

theorem specSepJoin_cons_cons (sep a b : String) (t : List String) :
    specSepJoin sep ((a ++ sep ++ b) :: t) = a ++ sep ++ specSepJoin sep (b :: t) := by
  cases t with
  | nil => simp [specSepJoin]
  | cons y t => simp [specSepJoin, String.append_assoc]

theorem goStringsJoin_eq_specSepJoin (sep : String) (l : List String) :
    goStringsJoin sep l = specSepJoin sep l := by
  cases l with
  | nil => rfl
  | cons x xs =>
    show xs.foldl (fun acc s => acc ++ sep ++ s) x = specSepJoin sep (x :: xs)
    induction xs generalizing x with
    | nil => rfl
    | cons y t ih =>
      show (y :: t).foldl (fun acc s => acc ++ sep ++ s) x = _
      rw [List.foldl_cons, ih (x ++ sep ++ y), specSepJoin_cons_cons]
      rfl

theorem aggLoop_cookies (b : String) (fs : List CookieFilter) :
    ∀ (stores : List Store) (i : Nat),
      (aggLoop b fs stores i).cookies
        = ((stores.filter (fun s => s.browser == b)).map (fun s => (s.read fs).1)).flatten := by
  intro stores
  induction stores with
  | nil => intro i; rfl
  | cons s rest ih =>
    intro i
    by_cases h : s.browser = b
    · simp [aggLoop, h, List.filter_cons, ih (i + 1)]
    · simp [aggLoop, h, List.filter_cons, ih (i + 1)]

theorem aggLoop_errs (b : String) (fs : List CookieFilter) :
    ∀ (stores : List Store) (i : Nat),
      (aggLoop b fs stores i).errs
        = (stores.filter (fun s => s.browser == b)).filterMap (fun s => (s.read fs).2) := by
  intro stores
  induction stores with
  | nil => intro i; rfl
  | cons s rest ih =>
    intro i
    by_cases h : s.browser = b
    · cases hr : (s.read fs).2 with
      | none => simp [aggLoop, h, List.filter_cons, List.filterMap_cons, hr, ih (i + 1)]
      | some e => simp [aggLoop, h, List.filter_cons, List.filterMap_cons, hr, ih (i + 1)]
    · simp [aggLoop, h, List.filter_cons, List.filterMap_cons, ih (i + 1)]

theorem aggLoop_defers (b : String) (fs : List CookieFilter) :
    ∀ (stores : List Store) (i : Nat),
      (aggLoop b fs stores i).defers = List.range' i stores.length := by
  intro stores
  induction stores with
  | nil => intro i; rfl
  | cons s rest ih =>
    intro i
    by_cases h : s.browser = b
    · simp [aggLoop, h, List.range'_succ, ih (i + 1)]
    · simp [aggLoop, h, List.range'_succ, ih (i + 1)]

theorem goMapOfList_foldl_eq {β α : Type} (key : β → String) (val : β → α) :
    ∀ (l : List β) (m : String → Option α) (k : String),
      (l.foldl (fun m x => goMapUpdate m (key x) (val x)) m) k
        = match l.reverse.find? (fun y => key y == k) with
          | some x => some (val x)
          | none => m k := by
  intro l
  induction l with
  | nil => intro m k; rfl
  | cons x t ih =>
    intro m k
    rw [List.foldl_cons, ih, List.reverse_cons, List.find?_append]
    cases ht : t.reverse.find? (fun y => key y == k) with
    | some y => rfl
    | none =>
      by_cases hk : key x = k
      · have hb : (key x == k) = true := beq_iff_eq.mpr hk
        have hk2 : k = key x := hk.symm
        simp [goMapUpdate, List.find?, Option.or, hb, hk2]
      · have hb : (key x == k) = false := beq_eq_false_iff_ne.mpr hk
        have hk2 : ¬(k = key x) := fun h => hk h.symm
        simp [goMapUpdate, List.find?, Option.or, hb, hk2]

theorem goMapOfList_eq_find? {β α : Type} (key : β → String) (val : β → α)
    (l : List β) (k : String) :
    goMapOfList key val l k = (l.reverse.find? (fun y => key y == k)).map val := by
  rw [goMapOfList, goMapOfList_foldl_eq]
  cases l.reverse.find? (fun y => key y == k) with
  | some y => rfl
  | none => rfl

theorem find?_reverse_key_eq_some_iff {β : Type} (key : β → String) {l : List β}
    (hn : (l.map key).Nodup) (k : String) (x : β) :
    l.reverse.find? (fun y => key y == k) = some x ↔ x ∈ l ∧ key x = k := by
  constructor
  · intro h
    have hmem : x ∈ l := List.mem_reverse.mp (List.mem_of_find?_eq_some h)
    have hkey : key x = k := by simpa using List.find?_some h
    exact ⟨hmem, hkey⟩
  · rintro ⟨hmem, hkey⟩
    have hsome : (l.reverse.find? (fun y => key y == k)).isSome = true := by
      rw [List.find?_isSome]
      exact ⟨x, List.mem_reverse.mpr hmem, by simp [hkey]⟩
    obtain ⟨y, hy⟩ := Option.isSome_iff_exists.mp hsome
    have hymem : y ∈ l := List.mem_reverse.mp (List.mem_of_find?_eq_some hy)
    have hykey : key y = k := by simpa using List.find?_some hy
    have : y = x := List.inj_on_of_nodup_map hn hymem hmem (hykey.trans hkey.symm)
    rw [hy, this]

theorem mem_goMarshalKeys (raw : List String) (k : String) :
    k ∈ goMarshalKeys raw ↔ k ∈ raw :=
  ((List.perm_insertionSort _ raw.dedup).mem_iff).trans List.mem_dedup

theorem nodup_goMarshalKeys (raw : List String) : (goMarshalKeys raw).Nodup :=
  ((List.perm_insertionSort _ raw.dedup).nodup_iff).mpr (List.nodup_dedup raw)

theorem sorted_goMarshalKeys (raw : List String) :
    List.Sorted (fun a b => a ≤ b) (goMarshalKeys raw) :=
  List.sorted_insertionSort _ raw.dedup

theorem mem_goMarshalEntries {β α : Type} (key : β → String) (val : β → α)
    (l : List β) (k : String) (v : α) :
    (k, v) ∈ goMarshalEntries key val l ↔
      ∃ x, l.reverse.find? (fun y => key y == k) = some x ∧ val x = v := by
  rw [goMarshalEntries, List.mem_filterMap]
  constructor
  · rintro ⟨k', _, hf⟩
    obtain ⟨w, hw, hkv⟩ := Option.map_eq_some'.mp hf
    injection hkv with h1 h2
    subst h1
    subst h2
    rw [goMapOfList_eq_find?] at hw
    obtain ⟨x, hx, hval⟩ := Option.map_eq_some'.mp hw
    exact ⟨x, hx, hval⟩
  · rintro ⟨x, hfind, hval⟩
    have hmem : x ∈ l := List.mem_reverse.mp (List.mem_of_find?_eq_some hfind)
    have hkey : key x = k := by simpa using List.find?_some hfind
    refine ⟨k, ?_, ?_⟩
    · rw [mem_goMarshalKeys, List.mem_map]
      exact ⟨x, hmem, hkey⟩
    · rw [goMapOfList_eq_find?, hfind]
      simp [hval]

theorem filterMap_total_keys {α : Type} :
    ∀ (ks : List String) (f : String → Option α),
      (∀ k ∈ ks, (f k).isSome = true) →
      (ks.filterMap (fun k => (f k).map (fun v => (k, v)))).map Prod.fst = ks := by
  intro ks
  induction ks with
  | nil => intro f _; rfl
  | cons k t ih =>
    intro f hf
    obtain ⟨v, hv⟩ := Option.isSome_iff_exists.mp (hf k (List.mem_cons_self k t))
    rw [List.filterMap_cons]
    simp only [hv, Option.map_some']
    rw [List.map_cons, ih f (fun q hq => hf q (List.mem_cons_of_mem k hq))]

theorem keys_goMarshalEntries {β α : Type} (key : β → String) (val : β → α) (l : List β) :
    (goMarshalEntries key val l).map Prod.fst = goMarshalKeys (l.map key) := by
  rw [goMarshalEntries]
  refine filterMap_total_keys _ _ ?_
  intro k hk
  rw [mem_goMarshalKeys, List.mem_map] at hk
  obtain ⟨x, hx, hkey⟩ := hk
  rw [goMapOfList_eq_find?, Option.isSome_map']
  rw [List.find?_isSome]
  exact ⟨x, List.mem_reverse.mpr hx, by simp [hkey]⟩

theorem digitToChar_inj : ∀ d1 d2 : Nat, d1 < 10 → d2 < 10 →
    digitToChar d1 = digitToChar d2 → d1 = d2 := by
  intro d1 d2 h1 h2
  interval_cases d1 <;> interval_cases d2 <;> decide

theorem map_digitToChar_inj :
    ∀ l1 l2 : List Nat, (∀ x ∈ l1, x < 10) → (∀ x ∈ l2, x < 10) →
      l1.map digitToChar = l2.map digitToChar → l1 = l2 := by
  intro l1
  induction l1 with
  | nil =>
    intro l2 _ _ h
    cases l2 with
    | nil => rfl
    | cons y t => simp at h
  | cons x t ih =>
    intro l2 hb1 hb2 h
    cases l2 with
    | nil => simp at h
    | cons y u =>
      rw [List.map_cons, List.map_cons] at h
      injection h with hh ht
      have hx : x = y := digitToChar_inj x y (hb1 x (List.mem_cons_self x t))
        (hb2 y (List.mem_cons_self y u)) hh
      have htl : t = u := ih u (fun z hz => hb1 z (List.mem_cons_of_mem x hz))
        (fun z hz => hb2 z (List.mem_cons_of_mem y hz)) ht
      rw [hx, htl]

theorem itoa_inj_pos {m n : Nat} (hm : m ≠ 0) (hn : n ≠ 0) (h : itoa m = itoa n) : m = n := by
  rw [itoa, itoa, if_neg hm, if_neg hn] at h
  injection h with h
  rw [List.reverse_inj] at h
  have hdig : Nat.digits 10 m = Nat.digits 10 n :=
    map_digitToChar_inj _ _
      (fun x hx => Nat.digits_lt_base (by norm_num) hx)
      (fun x hx => Nat.digits_lt_base (by norm_num) hx) h
  calc m = Nat.ofDigits 10 (Nat.digits 10 m) := (Nat.ofDigits_digits 10 m).symm
    _ = Nat.ofDigits 10 (Nat.digits 10 n) := by rw [hdig]
    _ = n := Nat.ofDigits_digits 10 n

theorem indexedFrom_map_fst {α : Type} :
    ∀ (l : List α) (i : Nat), (indexedFrom i l).map Prod.fst = List.range' i l.length := by
  intro l
  induction l with
  | nil => intro i; rfl
  | cons x t ih => intro i; simp [indexedFrom, List.range'_succ, ih (i + 1)]

theorem mem_indexedFrom {α : Type} :
    ∀ (l : List α) (i : Nat) (p : Nat × α),
      p ∈ indexedFrom i l ↔ ∃ j, ∃ h : j < l.length, p.1 = i + j ∧ p.2 = l.get ⟨j, h⟩ := by
  intro l
  induction l with
  | nil => intro i p; simp [indexedFrom]
  | cons x t ih =>
    intro i p
    rw [indexedFrom, List.mem_cons, ih (i + 1) p]
    constructor
    · rintro (rfl | ⟨j, hj, hfst, hsnd⟩)
      · exact ⟨0, by simp, by simp, by simp⟩
      · exact ⟨j + 1, by simpa using hj, by omega, by simpa using hsnd⟩
    · rintro ⟨j, hj, hfst, hsnd⟩
      cases j with
      | zero =>
        left
        have h1 : p.1 = i := by omega
        have h2 : p.2 = x := by simpa using hsnd
        cases p
        simp only at h1 h2
        rw [h1, h2]
      | succ j =>
        right
        exact ⟨j, by simpa using hj, by omega, by simpa using hsnd⟩

theorem nodup_storeErrorKeys (errs : List String) :
    ((indexedFrom 0 errs).map (fun p => itoa (p.1 + 1))).Nodup := by
  have hcomp : (indexedFrom 0 errs).map (fun p => itoa (p.1 + 1))
      = ((indexedFrom 0 errs).map Prod.fst).map (fun n => itoa (n + 1)) := by
    rw [List.map_map]
    rfl
  rw [hcomp, indexedFrom_map_fst]
  refine List.Nodup.map_on ?_ (List.nodup_range' 0 errs.length)
  intro a _ b _ hab
  have := itoa_inj_pos (Nat.succ_ne_zero a) (Nat.succ_ne_zero b) hab
  omega

/-- C2: every enumerated store is released exactly once before getCookies
returns.  The close trace equals the reversed enumeration range (deferred
calls run in reverse registration order when the function returns), so it is
a function of the store count alone — independent of browser matches and of
every read result; each enumerated index is closed exactly once and nothing
else is ever closed. -/
theorem getCookies_close_trace (b d : String) (e : Bool) (stores : List Store) :
    (getCookies b d e stores).closedOrder = (List.range' 0 stores.length).reverse ∧
    (∀ i, i < stores.length → (getCookies b d e stores).closedOrder.count i = 1) ∧
    (∀ i, stores.length ≤ i → (getCookies b d e stores).closedOrder.count i = 0) := by
  have hco : (getCookies b d e stores).closedOrder = (List.range' 0 stores.length).reverse := by
    simp [getCookies, aggLoop_defers]
  refine ⟨hco, ?_, ?_⟩
  · intro i hi
    rw [hco, List.count_reverse]
    exact List.count_eq_one_of_mem (List.nodup_range' 0 stores.length)
      (List.mem_range'_1.mpr ⟨Nat.zero_le i, by omega⟩)
  · intro i hi
    rw [hco, List.count_reverse, List.count_eq_zero, List.mem_range'_1]
    omega

/-- Witness for getCookies_close_trace: two stores (one matching, one whose
read fails); both are closed exactly once. -/
theorem getCookies_close_trace_witness :
    (0 < 2 ∧ 2 ≤ 5) ∧
    ((getCookies "chrome" "x" false [storeGood, storeLocked]).closedOrder.count 0 = 1 ∧
     (getCookies "chrome" "x" false [storeGood, storeLocked]).closedOrder.count 5 = 0) :=
  ⟨⟨by decide, by decide⟩,
    (getCookies_close_trace "chrome" "x" false [storeGood, storeLocked]).2.1 0 (by decide),
    (getCookies_close_trace "chrome" "x" false [storeGood, storeLocked]).2.2 5 (by decide)⟩

/-- Counterexample to C1 as stated: a matching store whose read fails and
returns a cookie sequence.  The error text is recorded, yet the cookie from
the failed read appears in the aggregate, because the source appends the
returned sequence unconditionally after recording the error. -/
theorem getCookies_failed_read_cookies_kept :
    (getCookies "chrome" "x" false [storeBad]).storeErrors = ["locked"] ∧
    (getCookies "chrome" "x" false [storeBad]).result = Except.ok [cTheme] := by
  constructor <;> rfl

/-- C1 (amended): aggregation concatenates the returned cookie sequences of
all matching stores — including sequences returned alongside a read error —
preserving per-store order and store-enumeration order; each failed read
contributes its error text to the Store Error list in encounter order, and
processing always continues through every store, so a single unreadable
store never aborts the run. -/
theorem getCookies_aggregation_spec (b d : String) (e : Bool) (stores : List Store) :
    (getCookies b d e stores).storeErrors
      = (stores.filter (fun s => s.browser == b)).filterMap
          (fun s => (s.read (cookieFilters e d)).2) ∧
    (((stores.filter (fun s => s.browser == b)).map
        (fun s => (s.read (cookieFilters e d)).1)).flatten = [] →
      (getCookies b d e stores).result = Except.error (errNoCookiesMsg b d)) ∧
    (((stores.filter (fun s => s.browser == b)).map
        (fun s => (s.read (cookieFilters e d)).1)).flatten ≠ [] →
      (getCookies b d e stores).result
        = Except.ok (((stores.filter (fun s => s.browser == b)).map
            (fun s => (s.read (cookieFilters e d)).1)).flatten)) := by
  refine ⟨?_, ?_, ?_⟩
  · simp [getCookies, aggLoop_errs]
  · intro h
    simp [getCookies, aggLoop_cookies, h]
  · intro h
    simp [getCookies, aggLoop_cookies, h]

/-- Witness for getCookies_aggregation_spec: two matching stores and a
firefox store; the aggregate is the in-order concatenation. -/
theorem getCookies_aggregation_spec_witness :
    ((([storeGood, storeFox, storeLocked].filter (fun s => s.browser == "chrome")).map
        (fun s => (s.read (cookieFilters false "x")).1)).flatten ≠ []) ∧
    (getCookies "chrome" "x" false [storeGood, storeFox, storeLocked]).result
      = Except.ok [cSid, cTheme] :=
  ⟨by decide,
    (getCookies_aggregation_spec "chrome" "x" false [storeGood, storeFox, storeLocked]).2.2
      (by decide)⟩

/-- Counterexample to C4 as stated: with a single matching store whose read
fails but returns a cookie, there are no matching non-errored cookies at
all, yet getCookies succeeds instead of failing with the NotFound error,
because the emptiness test runs over the aggregate that includes cookies
from failed reads. -/
theorem getCookies_notFound_gloss_counterexample :
    specNonErroredConcat "chrome" "x" false [storeBad] = [] ∧
    (getCookies "chrome" "x" false [storeBad]).storeErrors = ["locked"] ∧
    (getCookies "chrome" "x" false [storeBad]).result = Except.ok [cTheme] := by
  refine ⟨?_, ?_, ?_⟩ <;> rfl

/-- C4 (amended): getCookies fails with the NotFound error exactly when the
concatenated cookie sequence — the concatenation of every matching store
read result, including sequences returned alongside an error — is empty;
a non-empty Store Error list never by itself causes failure. -/
theorem getCookies_notFound_iff (b d : String) (e : Bool) (stores : List Store) :
    ((getCookies b d e stores).result = Except.error (errNoCookiesMsg b d) ↔
      ((stores.filter (fun s => s.browser == b)).map
        (fun s => (s.read (cookieFilters e d)).1)).flatten = []) ∧
    ((getCookies b d e stores).storeErrors ≠ [] →
      ((stores.filter (fun s => s.browser == b)).map
        (fun s => (s.read (cookieFilters e d)).1)).flatten ≠ [] →
      (getCookies b d e stores).result
        = Except.ok (((stores.filter (fun s => s.browser == b)).map
            (fun s => (s.read (cookieFilters e d)).1)).flatten)) := by
  constructor
  · constructor
    · intro h
      by_contra hne
      simp [getCookies, aggLoop_cookies, hne] at h
    · intro h
      simp [getCookies, aggLoop_cookies, h]
  · intro _ hne
    simp [getCookies, aggLoop_cookies, hne]

/-- Witness for getCookies_notFound_iff: an erroring store next to a
successful one; the error list is non-empty and aggregation still
succeeds. -/
theorem getCookies_notFound_iff_witness :
    ((getCookies "chrome" "x" false [storeGood, storeLocked]).storeErrors ≠ [] ∧
     (([storeGood, storeLocked].filter (fun s => s.browser == "chrome")).map
        (fun s => (s.read (cookieFilters false "x")).1)).flatten ≠ []) ∧
    (getCookies "chrome" "x" false [storeGood, storeLocked]).result
      = Except.ok [cSid, cTheme] :=
  ⟨⟨by decide, by decide⟩,
    (getCookies_notFound_iff "chrome" "x" false [storeGood, storeLocked]).2
      (by decide) (by decide)⟩

/-- C3: single-value lookup is determined by the first record whose name
equals the requested name under case-sensitive string equality: no match is
the NotFound error; a first match with empty value is the EmptyValue error;
a first match with non-empty value is returned.  The result is a pure
function of the sequence and the name by construction. -/
theorem getCookieValue_spec (cookies : List Cookie) (n : String) :
    (cookies.find? (fun c => n == c.Name) = none →
      getCookieValue cookies n = Except.error LookupError.notFound) ∧
    (∀ c, cookies.find? (fun c => n == c.Name) = some c →
      ((c.Value = "" → getCookieValue cookies n = Except.error LookupError.emptyValue) ∧
       (c.Value ≠ "" → getCookieValue cookies n = Except.ok c.Value))) := by
  induction cookies with
  | nil => exact ⟨fun _ => rfl, fun c h => by simp [List.find?] at h⟩
  | cons c0 rest ih =>
    by_cases h : n = c0.Name
    · have hb : (n == c0.Name) = true := beq_iff_eq.mpr h
      constructor
      · intro hnone
        simp only [List.find?_cons, hb] at hnone
        exact absurd hnone (by simp)
      · intro c hsome
        simp only [List.find?_cons, hb] at hsome
        injection hsome with hc
        subst hc
        constructor
        · intro hv
          simp [getCookieValue, h, hv]
        · intro hv
          simp [getCookieValue, h, hv]
    · have hb : (n == c0.Name) = false := beq_eq_false_iff_ne.mpr h
      constructor
      · intro hnone
        simp only [List.find?_cons, hb] at hnone
        have := ih.1 hnone
        simpa [getCookieValue, h] using this
      · intro c hsome
        simp only [List.find?_cons, hb] at hsome
        have := ih.2 c hsome
        exact ⟨fun hv => by simpa [getCookieValue, h] using this.1 hv,
               fun hv => by simpa [getCookieValue, h] using this.2 hv⟩

/-- Witness for getCookieValue_spec: the first (unique) record named sid has
value abc, and the lookup returns it. -/
theorem getCookieValue_spec_witness :
    ([cSid, cTheme].find? (fun c => "sid" == c.Name) = some cSid ∧ cSid.Value ≠ "") ∧
    getCookieValue [cSid, cTheme] "sid" = Except.ok cSid.Value :=
  ⟨⟨by decide, by decide⟩,
    ((getCookieValue_spec [cSid, cTheme] "sid").2 cSid (by decide)).2 (by decide)⟩

/-- C6: the curl formatter emits exactly the command string with every
cookie of the sequence as a name=value pair, in aggregation order, joined by
semicolons, with no deduplication by name — two records named a with values
1 then 2 yield the fragment a=1;a=2 — and the raw user-supplied domain
spliced in verbatim. -/
theorem createCurlCommand_spec (cookies : List Cookie) (domain : String) :
    createCurlCommand cookies domain
      = "curl -H " ++ squo ++ "Cookie: "
          ++ specSepJoin ";" (cookies.map (fun c => c.Name ++ "=" ++ c.Value))
          ++ squo ++ " " ++ squo ++ "https://" ++ domain ++ squo ∧
    createCurlCommand [⟨"a", "1", "", "", 0, 0, ""⟩, ⟨"a", "2", "", "", 0, 0, ""⟩] domain
      = "curl -H " ++ squo ++ "Cookie: a=1;a=2" ++ squo ++ " " ++ squo
          ++ "https://" ++ domain ++ squo := by
  constructor
  · rw [createCurlCommand]
    rw [foldl_append_singleton (fun c : Cookie => c.Name ++ "=" ++ c.Value) cookies []]
    rw [goStringsJoin_eq_specSepJoin]
    rfl
  · rfl

/-- C5: the name-value formatter has exactly one entry per distinct cookie
name — its key list is duplicate-free and carries precisely the names that
occur in the aggregated sequence — and each name is bound to the value of
the last record bearing that name in aggregation order (the first match
found scanning the reversed sequence). -/
theorem serializeCookiesToJson_last_write_wins (cookies : List Cookie)
    (_hne : cookies ≠ []) :
    ((serializeCookiesToJsonEntries cookies).map Prod.fst).Nodup ∧
    (∀ n, n ∈ (serializeCookiesToJsonEntries cookies).map Prod.fst ↔
        n ∈ cookies.map Cookie.Name) ∧
    (∀ n v, (n, v) ∈ serializeCookiesToJsonEntries cookies ↔
      ∃ c, cookies.reverse.find? (fun q => q.Name == n) = some c ∧ c.Value = v) := by
  refine ⟨?_, ?_, ?_⟩
  · rw [serializeCookiesToJsonEntries, keys_goMarshalEntries]
    exact nodup_goMarshalKeys _
  · intro n
    rw [serializeCookiesToJsonEntries, keys_goMarshalEntries, mem_goMarshalKeys]
  · intro n v
    exact mem_goMarshalEntries Cookie.Name Cookie.Value cookies n v

/-- Witness for serializeCookiesToJson_last_write_wins: with records named
sid then theme then a second sid with value xyz, the entry for sid holds the
later value xyz. -/
theorem serializeCookiesToJson_last_write_wins_witness :
    ([cSid, cTheme, ⟨"sid", "xyz", "/", "example.com", 2, 2, ""⟩] ≠ ([] : List Cookie)) ∧
    ("sid", "xyz")
      ∈ serializeCookiesToJsonEntries [cSid, cTheme, ⟨"sid", "xyz", "/", "example.com", 2, 2, ""⟩] :=
  ⟨by decide,
    ((serializeCookiesToJson_last_write_wins
        [cSid, cTheme, ⟨"sid", "xyz", "/", "example.com", 2, 2, ""⟩] (by decide)).2.2
      "sid" "xyz").mpr ⟨⟨"sid", "xyz", "/", "example.com", 2, 2, ""⟩, by decide, rfl⟩⟩

theorem cookieReflectFields_firefox (c : Cookie) :
    cookieReflectFields "firefox" c = cookieFieldList c := rfl

theorem cookieReflectFields_not_firefox {b : String} (hb : b ≠ "firefox") (c : Cookie) :
    cookieReflectFields b c =
      [("Name", JValue.str c.Name), ("Value", JValue.str c.Value),
       ("Path", JValue.str c.Path), ("Domain", JValue.str c.Domain),
       ("Expires", JValue.num c.Expires), ("Creation", JValue.num c.Creation)] := by
  have hbne : (b != "firefox") = true := bne_iff_ne.mpr hb
  simp [cookieReflectFields, cookieFieldList, hbne]

theorem container_mem_cookieReflectFields (b : String) (c : Cookie) :
    ("Container" ∈ (cookieReflectFields b c).map Prod.fst) ↔ b = "firefox" := by
  by_cases hb : b = "firefox"
  · subst hb
    rw [cookieReflectFields_firefox]
    simp [cookieFieldList]
  · rw [cookieReflectFields_not_firefox hb]
    simp [hb]

/-- C8: the full-field formatter maps each distinct cookie name (with the
same last-write-wins rule as the name-value formatter) to the field map of
the last record of that name, and that field map contains the Container key
exactly when the selected browser is firefox — for every other browser the
key is absent from the entry list entirely, rather than bound to a null or
empty value. -/
theorem serializeFullCookieInfoToJson_spec (browser : String) (cookies : List Cookie) :
    (∀ p, p ∈ serializeFullCookieInfoToJsonEntries browser cookies →
        ("Container" ∈ p.2.map Prod.fst ↔ browser = "firefox")) ∧
    ((serializeFullCookieInfoToJsonEntries browser cookies).map Prod.fst).Nodup ∧
    (∀ n, n ∈ (serializeFullCookieInfoToJsonEntries browser cookies).map Prod.fst ↔
        n ∈ cookies.map Cookie.Name) ∧
    (∀ n fs, (n, fs) ∈ serializeFullCookieInfoToJsonEntries browser cookies ↔
      ∃ c, cookies.reverse.find? (fun q => q.Name == n) = some c ∧
        cookieReflectFields browser c = fs) := by
  refine ⟨?_, ?_, ?_, ?_⟩
  · rintro ⟨n, fs⟩ hp
    obtain ⟨c, _, hval⟩ :=
      (mem_goMarshalEntries Cookie.Name (cookieReflectFields browser) cookies n fs).mp hp
    rw [← hval]
    exact container_mem_cookieReflectFields browser c
  · rw [serializeFullCookieInfoToJsonEntries, keys_goMarshalEntries]
    exact nodup_goMarshalKeys _
  · intro n
    rw [serializeFullCookieInfoToJsonEntries, keys_goMarshalEntries, mem_goMarshalKeys]
  · intro n fs
    exact mem_goMarshalEntries Cookie.Name (cookieReflectFields browser) cookies n fs

/-- Witness for serializeFullCookieInfoToJson_spec: under firefox the sid
entry contains the Container key; the same theorem applied under chrome
shows it absent. -/
theorem serializeFullCookieInfoToJson_spec_witness :
    (("sid", cookieReflectFields "firefox" cSid)
        ∈ serializeFullCookieInfoToJsonEntries "firefox" [cSid] ∧
     ("sid", cookieReflectFields "chrome" cSid)
        ∈ serializeFullCookieInfoToJsonEntries "chrome" [cSid]) ∧
    (("Container" ∈ (cookieReflectFields "firefox" cSid).map Prod.fst ↔
        ("firefox" : String) = "firefox") ∧
     ("Container" ∈ (cookieReflectFields "chrome" cSid).map Prod.fst ↔
        ("chrome" : String) = "firefox")) :=
  ⟨⟨by decide, by decide⟩,
    (serializeFullCookieInfoToJson_spec "firefox" [cSid]).1
      ("sid", cookieReflectFields "firefox" cSid) (by decide),
    (serializeFullCookieInfoToJson_spec "chrome" [cSid]).1
      ("sid", cookieReflectFields "chrome" cSid) (by decide)⟩

theorem goMarshalKeys_perm_eq {r1 r2 : List String} (hp : r1.Perm r2) :
    goMarshalKeys r1 = goMarshalKeys r2 := by
  refine List.eq_of_perm_of_sorted ?_ (sorted_goMarshalKeys r1) (sorted_goMarshalKeys r2)
  exact (List.perm_insertionSort _ _).trans (hp.dedup.trans (List.perm_insertionSort _ _).symm)

theorem goMapOfList_perm_eq {β : Type} (key : β → String) {α : Type} (val : β → α)
    {l1 l2 : List β} (hp : l1.Perm l2) (hnd : (l1.map key).Nodup) (k : String) :
    goMapOfList key val l1 k = goMapOfList key val l2 k := by
  have hnd2 : (l2.map key).Nodup := ((hp.map key).nodup_iff).mp hnd
  rw [goMapOfList_eq_find?, goMapOfList_eq_find?]
  cases h1 : l1.reverse.find? (fun y => key y == k) with
  | some x =>
    obtain ⟨hx, hkx⟩ := (find?_reverse_key_eq_some_iff key hnd k x).mp h1
    rw [(find?_reverse_key_eq_some_iff key hnd2 k x).mpr ⟨hp.mem_iff.mp hx, hkx⟩]
  | none =>
    rw [List.find?_eq_none] at h1
    have h2 : l2.reverse.find? (fun y => key y == k) = none := by
      rw [List.find?_eq_none]
      intro x hx hpx
      exact h1 x (List.mem_reverse.mpr (hp.mem_iff.mpr (List.mem_reverse.mp hx))) hpx
    rw [h2]

/-- C10: when no two cookies share a name, the name-value JSON output is
invariant under permutation of the aggregated sequence: the emitted keys are
in sorted order, and two permuted sequences with pairwise-distinct names
produce the identical output string. -/
theorem serializeCookiesToJson_perm_invariant (l1 l2 : List Cookie)
    (hperm : l1.Perm l2) (hnd : (l1.map Cookie.Name).Nodup) :
    List.Sorted (fun a b => a ≤ b) ((serializeCookiesToJsonEntries l1).map Prod.fst) ∧
    serializeCookiesToJson l1 = serializeCookiesToJson l2 := by
  have hkeys : goMarshalKeys (l1.map Cookie.Name) = goMarshalKeys (l2.map Cookie.Name) :=
    goMarshalKeys_perm_eq (hperm.map Cookie.Name)
  have hentries : serializeCookiesToJsonEntries l1 = serializeCookiesToJsonEntries l2 := by
    rw [serializeCookiesToJsonEntries, serializeCookiesToJsonEntries,
      goMarshalEntries, goMarshalEntries, hkeys]
    exact List.filterMap_congr
      (fun k _ => by rw [goMapOfList_perm_eq Cookie.Name Cookie.Value hperm hnd k])
  constructor
  · rw [serializeCookiesToJsonEntries, keys_goMarshalEntries]
    exact sorted_goMarshalKeys _
  · rw [serializeCookiesToJson, serializeCookiesToJson, hentries]

/-- Witness for serializeCookiesToJson_perm_invariant: swapping two
distinct-name cookies leaves the output string unchanged. -/
theorem serializeCookiesToJson_perm_invariant_witness :
    (List.Perm [cSid, cTheme] [cTheme, cSid] ∧ ([cSid, cTheme].map Cookie.Name).Nodup) ∧
    serializeCookiesToJson [cSid, cTheme] = serializeCookiesToJson [cTheme, cSid] :=
  ⟨⟨by decide, by decide⟩,
    (serializeCookiesToJson_perm_invariant [cSid, cTheme] [cTheme, cSid]
      (by decide) (by decide)).2⟩

/-- Counterexample to C7 as stated: with the help flag set, the domain flag
empty and curl plus name both set, parseFlags exits through the usage path
with status 0 — it does not fail with a configuration error — because the
help and no-flags check runs before both validations. -/
theorem parseFlags_usage_precedes_validation :
    helpConflictFlags.domain = "" ∧ helpConflictFlags.curl = true ∧
    helpConflictFlags.name ≠ "" ∧
    parseFlags helpConflictFlags = ParseResult.usageExit := by
  refine ⟨rfl, rfl, by decide, rfl⟩

/-- C7 (amended): when the usage path is not taken (help unset and at least
one flag supplied), an empty domain is a ConfigError, and curl together with
a non-empty name is a ConfigError; every parseFlags ConfigError makes run
abort at once, with no store enumerated, read or closed. -/
theorem parseFlags_configError_spec (f : Flags) (stores : List Store)
    (hhelp : f.help = false) (hnf : f.nflag ≠ 0) :
    (f.domain = "" → parseFlags f = ParseResult.configError domainRequiredMsg) ∧
    (f.curl = true → f.name ≠ "" → ∃ msg, parseFlags f = ParseResult.configError msg) ∧
    (∀ msg, parseFlags f = ParseResult.configError msg →
      runMain f stores = ⟨[], RunResult.error (RunError.config msg), [], []⟩) := by
  have hcond : (f.help || f.nflag == 0) = false := by
    rw [hhelp]
    simp [hnf]
  refine ⟨?_, ?_, ?_⟩
  · intro hd
    simp [parseFlags, hcond, hd]
  · intro hc hname
    by_cases hd : f.domain = ""
    · exact ⟨domainRequiredMsg, by simp [parseFlags, hcond, hd]⟩
    · refine ⟨curlNameMutexMsg, ?_⟩
      have hb : (f.name != "") = true := bne_iff_ne.mpr hname
      simp [parseFlags, hcond, hd, hc, hb]
  · intro msg hmsg
    simp [runMain, hmsg]

/-- Witness for parseFlags_configError_spec: help unset, one flag supplied,
empty domain: parseFlags yields the domain ConfigError and run aborts with
no store activity. -/
theorem parseFlags_configError_spec_witness :
    (emptyDomainFlags.help = false ∧ emptyDomainFlags.nflag ≠ 0 ∧
      emptyDomainFlags.domain = "") ∧
    parseFlags emptyDomainFlags = ParseResult.configError domainRequiredMsg ∧
    runMain emptyDomainFlags [storeGood]
      = ⟨[], RunResult.error (RunError.config domainRequiredMsg), [], []⟩ :=
  ⟨⟨rfl, by decide, rfl⟩,
    (parseFlags_configError_spec emptyDomainFlags [storeGood] rfl (by decide)).1 rfl,
    (parseFlags_configError_spec emptyDomainFlags [storeGood] rfl (by decide)).2.2
      domainRequiredMsg
      ((parseFlags_configError_spec emptyDomainFlags [storeGood] rfl (by decide)).1 rfl)⟩

theorem runMain_ok_lines (f : Flags) (stores : List Store) (hdbg : f.debug = true)
    (hok : (runMain f stores).result = RunResult.ok) :
    ∃ out, (runMain f stores).lines
      = [formatStoreErrorsAsJson
          (getCookies f.browser f.domain f.expired stores).storeErrors, out] := by
  cases hp : parseFlags f with
  | usageExit => simp [runMain, hp] at hok
  | configError msg => simp [runMain, hp] at hok
  | ok =>
    cases hr : (getCookies f.browser f.domain f.expired stores).result with
    | error msg => simp [runMain, hp, hr] at hok
    | ok cookies =>
      cases hn : (f.name != "") with
      | true =>
        cases hv : getCookieValue cookies f.name with
        | error e => simp [runMain, hp, hr, hn, hv] at hok
        | ok v => exact ⟨v, by simp [runMain, hp, hr, hn, hv, hdbg]⟩
      | false =>
        cases hc : f.curl with
        | true =>
          exact ⟨createCurlCommand cookies f.domain,
            by simp [runMain, hp, hr, hn, hc, hdbg]⟩
        | false =>
          cases hf : f.full with
          | true =>
            exact ⟨serializeFullCookieInfoToJson f.browser cookies,
              by simp [runMain, hp, hr, hn, hc, hf, hdbg]⟩
          | false =>
            exact ⟨serializeCookiesToJson cookies,
              by simp [runMain, hp, hr, hn, hc, hf, hdbg]⟩

theorem runMain_result_congr (f : Flags) {s1 s2 : List Store}
    (hagg : (getCookies f.browser f.domain f.expired s1).result
          = (getCookies f.browser f.domain f.expired s2).result) :
    (runMain f s1).result = (runMain f s2).result := by
  cases hp : parseFlags f with
  | usageExit => simp [runMain, hp]
  | configError msg => simp [runMain, hp]
  | ok =>
    cases hr : (getCookies f.browser f.domain f.expired s1).result with
    | error msg =>
      have hr2 : (getCookies f.browser f.domain f.expired s2).result
          = Except.error msg := hagg.symm.trans hr
      simp [runMain, hp, hr, hr2]
    | ok cookies =>
      have hr2 : (getCookies f.browser f.domain f.expired s2).result
          = Except.ok cookies := hagg.symm.trans hr
      cases hn : (f.name != "") with
      | true =>
        cases hv : getCookieValue cookies f.name with
        | error e => simp [runMain, hp, hr, hr2, hn, hv]
        | ok v => simp [runMain, hp, hr, hr2, hn, hv]
      | false =>
        cases hc : f.curl with
        | true => simp [runMain, hp, hr, hr2, hn, hc]
        | false =>
          cases hf : f.full with
          | true => simp [runMain, hp, hr, hr2, hn, hc, hf]
          | false => simp [runMain, hp, hr, hr2, hn, hc, hf]

theorem storeErrorsEntries_keys_nodup (errs : List String) :
    ((storeErrorsEntries errs).map Prod.fst).Nodup := by
  rw [storeErrorsEntries, keys_goMarshalEntries]
  exact nodup_goMarshalKeys _

theorem storeErrorsEntries_keys_mem (errs : List String) (k : String) :
    k ∈ (storeErrorsEntries errs).map Prod.fst ↔
      ∃ j, j < errs.length ∧ k = itoa (j + 1) := by
  rw [storeErrorsEntries, keys_goMarshalEntries, mem_goMarshalKeys, List.mem_map]
  constructor
  · rintro ⟨p, hp, hk⟩
    obtain ⟨j, hj, hfst, _⟩ := (mem_indexedFrom errs 0 p).mp hp
    refine ⟨j, hj, ?_⟩
    rw [← hk, hfst]
    simp
  · rintro ⟨j, hj, hk⟩
    refine ⟨(j, errs.get ⟨j, hj⟩), (mem_indexedFrom errs 0 _).mpr ⟨j, hj, by simp, rfl⟩, ?_⟩
    simpa using hk.symm

theorem mem_storeErrorsEntries (errs : List String) (k v : String) :
    (k, v) ∈ storeErrorsEntries errs ↔
      ∃ j, ∃ h : j < errs.length, k = itoa (j + 1) ∧ v = errs.get ⟨j, h⟩ := by
  rw [storeErrorsEntries, mem_goMarshalEntries]
  constructor
  · rintro ⟨p, hfind, hval⟩
    obtain ⟨hpmem, hpkey⟩ :=
      (find?_reverse_key_eq_some_iff (fun p => itoa (p.1 + 1))
        (nodup_storeErrorKeys errs) k p).mp hfind
    obtain ⟨j, hj, hfst, hsnd⟩ := (mem_indexedFrom errs 0 p).mp hpmem
    refine ⟨j, hj, ?_, ?_⟩
    · rw [← hpkey, hfst]
      simp
    · rw [← hval, hsnd]
  · rintro ⟨j, hj, hk, hv⟩
    refine ⟨(j, errs.get ⟨j, hj⟩), ?_, hv.symm⟩
    refine (find?_reverse_key_eq_some_iff _ (nodup_storeErrorKeys errs) k _).mpr ⟨?_, ?_⟩
    · exact (mem_indexedFrom errs 0 _).mpr ⟨j, hj, by simp, rfl⟩
    · simpa using hk.symm

/-- C9: the store-error JSON maps exactly the string-rendered 1-based
position of each error to its text (duplicate-free keys, one entry per
recorded error); when debug is set and the run succeeds, that JSON line is
the first stdout line, printed before the single main result line; and the
process exit status never depends on the store-error content — runs whose
aggregation results agree have equal exit codes whatever their error lists
hold. -/
theorem storeErrors_debug_spec (f : Flags) (stores s2 : List Store)
    (hdbg : f.debug = true)
    (hok : (runMain f stores).result = RunResult.ok)
    (hagg : (getCookies f.browser f.domain f.expired stores).result
          = (getCookies f.browser f.domain f.expired s2).result) :
    (∀ errs : List String,
      ((storeErrorsEntries errs).map Prod.fst).Nodup ∧
      (∀ k, k ∈ (storeErrorsEntries errs).map Prod.fst ↔
        ∃ j, j < errs.length ∧ k = itoa (j + 1)) ∧
      (∀ k v, (k, v) ∈ storeErrorsEntries errs ↔
        ∃ j, ∃ h : j < errs.length, k = itoa (j + 1) ∧ v = errs.get ⟨j, h⟩)) ∧
    (∃ out, (runMain f stores).lines
        = [formatStoreErrorsAsJson
            (getCookies f.browser f.domain f.expired stores).storeErrors, out]) ∧
    exitCode (runMain f stores) = exitCode (runMain f s2) := by
  refine ⟨fun errs => ⟨storeErrorsEntries_keys_nodup errs,
      storeErrorsEntries_keys_mem errs, mem_storeErrorsEntries errs⟩,
    runMain_ok_lines f stores hdbg hok, ?_⟩
  rw [exitCode, exitCode, runMain_result_congr f hagg]

/-- Witness for storeErrors_debug_spec: a debug run over a good store and a
locked store; its exit status equals that of the run without the locked
store. -/
theorem storeErrors_debug_spec_witness :
    (debugFlags.debug = true ∧
     (runMain debugFlags [storeGood, storeLocked]).result = RunResult.ok ∧
     (getCookies debugFlags.browser debugFlags.domain debugFlags.expired
        [storeGood, storeLocked]).result
       = (getCookies debugFlags.browser debugFlags.domain debugFlags.expired
            [storeGood]).result) ∧
    exitCode (runMain debugFlags [storeGood, storeLocked])
      = exitCode (runMain debugFlags [storeGood]) :=
  ⟨⟨rfl, rfl, rfl⟩,
    (storeErrors_debug_spec debugFlags [storeGood, storeLocked] [storeGood]
      rfl rfl rfl).2.2⟩
